import Mathlib

/-!
Verification development for the Safevideo ingest / transcode / store pipeline.

Each definition is a shallow embedding of one piece of the Django backend
(`backend/videos/views.py`, `backend/videos/services.py`,
`backend/telegram_integration/services.py`).  Machine integers are modelled
as `Nat`/`Int`, byte strings as `List Nat`, database rows as structures and
the cache / database state is passed explicitly.
-/

namespace Safevideo

/-! ## Chunked upload receiver (`ChunkedUploadView.post`, views.py 48-131) -/

/-- The per-upload metadata dictionary kept in the Django cache
(views.py 86-92): `user_id`, `filename`, `total_chunks`,
`uploaded_chunks` (a set of indices, modelled as a duplicate-free list
built by `add`) and `total_size` (the `metadata.get('total_size', 0)`
counter, so it defaults to 0 for a fresh dictionary). -/
structure UploadMeta where
  user_id : Nat
  filename : String
  total_chunks : Int
  uploaded_chunks : List Int
  total_size : Nat
deriving DecidableEq

/-- The state touched by one upload id: the cached metadata entry
(`cache.get` returns `none` when absent) and the bytes of the on-disk
spool file (`open(upload_path, 'ab')` appends to it). -/
structure SpoolState where
  meta : Option UploadMeta
  fileBytes : List Nat
deriving DecidableEq

/-- One `POST` request to `ChunkedUploadView` (views.py 72-76):
`chunk` is `request.FILES.get('chunk')` (`none` when the part is missing),
the other fields are the parsed form fields; `chunk_index` and
`total_chunks` default to `-1` upstream when absent. -/
structure AppendReq where
  chunk : Option (List Nat)
  upload_id : String
  user_id : Nat
  chunk_index : Int
  total_chunks : Int
  filename : String

/-- Outcome of the view: HTTP 200 success, 400 validation error,
403 owner mismatch, or 413 oversized upload. -/
inductive AppendOutcome where
  | success (index : Int)
  | badRequest (msg : String)
  | forbidden
  | payloadTooLarge
deriving DecidableEq

/-- `ChunkedUploadView.MAX_FILE_SIZE = 10 * 1024 * 1024 * 1024` (views.py 57). -/
def MAX_FILE_SIZE : Nat := 10 * 1024 * 1024 * 1024

/-- Python `set.add` on the `uploaded_chunks` set (views.py 120):
inserts the index unless it is already present. -/
def setAdd (l : List Int) (i : Int) : List Int :=
  if l.contains i then l else l ++ [i]

/-- `ChunkedUploadView.post` (views.py 70-127) as a state transformer.

Mirrors the source order: field validation (`if not all([chunk, upload_id,
chunk_index >= 0, total_chunks > 0])`), metadata fetch with default,
owner check, the sequential-order check `chunk_index != len(uploaded_chunks)`,
the cumulative size check against `MAX_FILE_SIZE`, and only then the append
to the spool file plus the metadata update. -/
def chunkedUploadPost (st : SpoolState) (req : AppendReq) : AppendOutcome × SpoolState :=
  if ¬(req.chunk.isSome ∧ req.upload_id ≠ "" ∧ req.chunk_index ≥ 0 ∧ req.total_chunks > 0) then
    (.badRequest "Missing required fields", st)
  else
    let chunkBytes := req.chunk.getD []
    let meta := st.meta.getD ⟨req.user_id, req.filename, req.total_chunks, [], 0⟩
    if meta.user_id ≠ req.user_id then
      (.forbidden, st)
    else if req.chunk_index ≠ (meta.uploaded_chunks.length : Int) then
      (.badRequest "Chunks must be sent in order", st)
    else if meta.total_size + chunkBytes.length > MAX_FILE_SIZE then
      (.payloadTooLarge, st)
    else
      let meta' : UploadMeta :=
        { meta with
          uploaded_chunks := setAdd meta.uploaded_chunks req.chunk_index
          total_size := meta.total_size + chunkBytes.length }
      (.success req.chunk_index, { meta := some meta', fileBytes := st.fileBytes ++ chunkBytes })

/-- `len(metadata['uploaded_chunks'])` for the current cache entry — the
index the view expects next (views.py 98); 0 when no metadata exists yet. -/
def expectedIndex (st : SpoolState) : Int :=
  match st.meta with
  | some m => (m.uploaded_chunks.length : Int)
  | none => 0

/-- `metadata.get('total_size', 0)` for the current cache entry. -/
def recordedSize (st : SpoolState) : Nat :=
  match st.meta with
  | some m => m.total_size
  | none => 0

end Safevideo

namespace Safevideo

/-- Claim C1: for every spool state and every chunked-upload POST whose
`chunk_index` differs from the number of already-accepted chunks, the view
answers with a 400 validation error and neither the spool file bytes nor
the cached metadata change (no bytes appended, no index recorded).
Owner-mismatching requests are rejected separately with 403, so the claim
is stated for requests whose caller matches the captured owner. -/
theorem append_out_of_order_rejected (st : SpoolState) (req : AppendReq)
    (howner : ∀ m, st.meta = some m → m.user_id = req.user_id)
    (hidx : req.chunk_index ≠ expectedIndex st) :
    ∃ msg, chunkedUploadPost st req = (.badRequest msg, st) := by
  unfold chunkedUploadPost
  by_cases hfields : req.chunk.isSome ∧ req.upload_id ≠ "" ∧ req.chunk_index ≥ 0 ∧
      req.total_chunks > 0
  · cases hmeta : st.meta with
    | none =>
      have hidx' : ¬req.chunk_index = 0 := by
        simpa [expectedIndex, hmeta] using hidx
      simp [hfields, hmeta, hidx']
    | some m =>
      have huser : m.user_id = req.user_id := howner m hmeta
      have hidx' : ¬req.chunk_index = (m.uploaded_chunks.length : Int) := by
        simpa [expectedIndex, hmeta] using hidx
      simp [hfields, hmeta, huser, hidx']
  · simp [hfields]

/-- Witness for C1: a spool that has accepted chunk 0 rejects chunk 2
(expected index 1) and is left untouched. -/
theorem append_out_of_order_rejected_witness :
    ∃ msg,
      chunkedUploadPost
        { meta := some ⟨7, "a.mp4", 3, [0], 4⟩, fileBytes := [9, 9, 9, 9] }
        { chunk := some [1, 2], upload_id := "u1", user_id := 7,
          chunk_index := 2, total_chunks := 3, filename := "a.mp4" } =
      (.badRequest msg,
        { meta := some ⟨7, "a.mp4", 3, [0], 4⟩, fileBytes := [9, 9, 9, 9] }) :=
  append_out_of_order_rejected _ _ (by intro m hm; cases hm; rfl) (by decide)

/-- Claim C9: the recorded cumulative upload size never exceeds
`MAX_FILE_SIZE` (10 GiB), and a chunk that would push it over the bound —
on a request that passes the field, owner and ordering checks — is
rejected with the 413 oversized-upload error with the state unchanged,
i.e. before any bytes are written. -/
theorem append_chunk_size_bound (st : SpoolState) (req : AppendReq)
    (hinv : recordedSize st ≤ MAX_FILE_SIZE) :
    recordedSize (chunkedUploadPost st req).2 ≤ MAX_FILE_SIZE ∧
    ((req.chunk.isSome ∧ req.upload_id ≠ "" ∧ req.chunk_index ≥ 0 ∧ req.total_chunks > 0) →
      (∀ m, st.meta = some m → m.user_id = req.user_id) →
      req.chunk_index = expectedIndex st →
      recordedSize st + (req.chunk.getD []).length > MAX_FILE_SIZE →
      chunkedUploadPost st req = (.payloadTooLarge, st)) := by
  constructor
  · unfold chunkedUploadPost
    by_cases hfields : req.chunk.isSome ∧ req.upload_id ≠ "" ∧ req.chunk_index ≥ 0 ∧
        req.total_chunks > 0
    · rw [if_neg (not_not_intro hfields)]
      cases hmeta : st.meta with
      | none =>
        have hrec : recordedSize st = 0 := by simp [recordedSize, hmeta]
        simp only [hmeta, Option.getD_none]
        split_ifs with h1 h2 h3
        · exact hinv
        · exact hinv
        · exact hinv
        · simp only [recordedSize]
          omega
      | some m =>
        have hrec : recordedSize st = m.total_size := by simp [recordedSize, hmeta]
        simp only [hmeta, Option.getD_some]
        split_ifs with h1 h2 h3
        · exact hinv
        · exact hinv
        · exact hinv
        · simp only [recordedSize]
          omega
    · simpa [chunkedUploadPost, hfields, recordedSize] using hinv
  · intro hfields howner hidx hover
    unfold chunkedUploadPost
    cases hmeta : st.meta with
    | none =>
      have hidx' : req.chunk_index = 0 := by
        simpa [expectedIndex, hmeta] using hidx
      have hover' : MAX_FILE_SIZE < (req.chunk.getD []).length := by
        have := hover
        simp only [recordedSize, hmeta] at this
        omega
      simp [hfields, hmeta, hidx', hover']
    | some m =>
      have huser : m.user_id = req.user_id := howner m hmeta
      have hidx' : req.chunk_index = (m.uploaded_chunks.length : Int) := by
        simpa [expectedIndex, hmeta] using hidx
      have hover' : m.total_size + (req.chunk.getD []).length > MAX_FILE_SIZE := by
        simpa [recordedSize, hmeta] using hover
      simp [hfields, hmeta, huser, hidx', hover']

/-- Witness for C9: a spool already at the 10 GiB bound rejects a
one-byte chunk with 413 and is left unchanged. -/
theorem append_chunk_size_bound_witness :
    recordedSize (chunkedUploadPost
        { meta := some ⟨3, "big.mp4", 9, [0], MAX_FILE_SIZE⟩, fileBytes := [] }
        { chunk := some [5], upload_id := "u2", user_id := 3,
          chunk_index := 1, total_chunks := 9, filename := "big.mp4" }).2 ≤ MAX_FILE_SIZE ∧
    chunkedUploadPost
        { meta := some ⟨3, "big.mp4", 9, [0], MAX_FILE_SIZE⟩, fileBytes := [] }
        { chunk := some [5], upload_id := "u2", user_id := 3,
          chunk_index := 1, total_chunks := 9, filename := "big.mp4" } =
      (.payloadTooLarge,
        { meta := some ⟨3, "big.mp4", 9, [0], MAX_FILE_SIZE⟩, fileBytes := [] }) := by
  have h := append_chunk_size_bound
    { meta := some ⟨3, "big.mp4", 9, [0], MAX_FILE_SIZE⟩, fileBytes := [] }
    { chunk := some [5], upload_id := "u2", user_id := 3,
      chunk_index := 1, total_chunks := 9, filename := "big.mp4" }
    (by decide)
  exact ⟨h.1, h.2 (by decide) (by intro m hm; cases hm; rfl) (by decide) (by decide)⟩

end Safevideo

namespace Safevideo

/-! ## Range streaming egress (`StreamVideoView.get` views.py 250-321,
`StreamPDFView.get` views.py 903-954, `DriveService.get_file_range_iterator`
services.py 197-225) -/

/-- `StreamVideoView.INITIAL_CHUNK_CAP = 2 * 1024 * 1024` (views.py 259). -/
def INITIAL_CHUNK_CAP : Nat := 2 * 1024 * 1024

/-- `DriveService.get_file_range_iterator(file_id, start, end)`
(services.py 197-225): issues an upstream HTTP request with header
`Range: bytes=start-end` (both inclusive) and yields the returned chunks.
The stored file is modelled as its byte list; per HTTP range semantics the
upstream store answers with the bytes from `start` through
`min(end, size-1)`, which is `take (end + 1 - start)` of `drop start`.
The concatenation of the yielded chunks is returned. -/
def getFileRangeBytes (file : List Nat) (start endPos : Nat) : List Nat :=
  (file.drop start).take (endPos + 1 - start)

/-- The relevant parts of a `StreamingHttpResponse` built by the range
branches: HTTP status, the `Content-Range` header, the `Content-Length`
header, and the streamed body bytes. -/
structure StreamResp where
  statusCode : Nat
  contentRange : String
  contentLength : Int
  body : List Nat
deriving DecidableEq

/-- The `Range` branch of `StreamVideoView.get` (views.py 286-308) for a
syntactically valid header `bytes=a-` or `bytes=a-b` (parsed upstream into
`start = a` and an optional explicit end), over a stored file with known
nonzero size.  When the end is unspecified the code caps it at
`start + INITIAL_CHUNK_CAP - 1` (already clamped to `size - 1`), and in
both cases re-clamps to `size - 1`; it then serves status 206 with
`Content-Range: bytes {start}-{end}/{size}`, `Content-Length = end - start + 1`
and the body produced by `get_file_range_iterator(file_id, start, end)`. -/
def streamVideoRangeResponse (file : List Nat) (a : Nat) (bOpt : Option Nat) : StreamResp :=
  let size := file.length
  let e0 : Nat :=
    match bOpt with
    | some b => b
    | none => min (a + INITIAL_CHUNK_CAP - 1) (size - 1)
  let e := min e0 (size - 1)
  { statusCode := 206
    contentRange := "bytes " ++ toString a ++ "-" ++ toString e ++ "/" ++ toString size
    contentLength := (e : Int) - (a : Int) + 1
    body := getFileRangeBytes file a e }

/-- The `Range` branch of `StreamPDFView.get` (views.py 921-941): identical
parsing, but an unspecified end is set to `size - 1` — the PDF view applies
no initial 2 MiB cap. -/
def streamPDFRangeResponse (file : List Nat) (a : Nat) (bOpt : Option Nat) : StreamResp :=
  let size := file.length
  let e0 : Nat :=
    match bOpt with
    | some b => b
    | none => size - 1
  let e := min e0 (size - 1)
  { statusCode := 206
    contentRange := "bytes " ++ toString a ++ "-" ++ toString e ++ "/" ++ toString size
    contentLength := (e : Int) - (a : Int) + 1
    body := getFileRangeBytes file a e }

end Safevideo

namespace Safevideo

/-- Claim C3: a range request `bytes=a-b` with `0 ≤ a ≤ b < S` over a
stored file of size `S` is answered with a 206 whose `Content-Range`
header is `bytes a-b/S`, whose `Content-Length` is `b - a + 1`, and whose
body is exactly the byte slice `[a..b]` of the stored file. -/
theorem stream_video_bounded_range (file : List Nat) (a b : Nat)
    (hab : a ≤ b) (hbS : b < file.length) :
    (streamVideoRangeResponse file a (some b)).statusCode = 206 ∧
    (streamVideoRangeResponse file a (some b)).contentRange =
      "bytes " ++ toString a ++ "-" ++ toString b ++ "/" ++ toString file.length ∧
    (streamVideoRangeResponse file a (some b)).contentLength = (b : Int) - (a : Int) + 1 ∧
    (streamVideoRangeResponse file a (some b)).body = (file.take (b + 1)).drop a ∧
    (streamVideoRangeResponse file a (some b)).body.length = b - a + 1 := by
  have hbm : min b (file.length - 1) = b := by omega
  refine ⟨rfl, ?_, ?_, ?_, ?_⟩
  · simp [streamVideoRangeResponse, hbm]
  · simp [streamVideoRangeResponse, hbm]
  · simp [streamVideoRangeResponse, getFileRangeBytes, hbm, List.drop_take]
  · simp only [streamVideoRangeResponse, getFileRangeBytes, hbm, List.length_take,
      List.length_drop]
    omega

/-- Witness for C3: serving `bytes=1-3` over a five-byte file. -/
theorem stream_video_bounded_range_witness :
    (streamVideoRangeResponse [10, 20, 30, 40, 50] 1 (some 3)).statusCode = 206 ∧
    (streamVideoRangeResponse [10, 20, 30, 40, 50] 1 (some 3)).contentRange =
      "bytes " ++ toString 1 ++ "-" ++ toString 3 ++ "/" ++ toString (List.length [10, 20, 30, 40, 50]) ∧
    (streamVideoRangeResponse [10, 20, 30, 40, 50] 1 (some 3)).contentLength = (3 : Int) - (1 : Int) + 1 ∧
    (streamVideoRangeResponse [10, 20, 30, 40, 50] 1 (some 3)).body =
      (List.take (3 + 1) [10, 20, 30, 40, 50]).drop 1 ∧
    (streamVideoRangeResponse [10, 20, 30, 40, 50] 1 (some 3)).body.length = 3 - 1 + 1 :=
  stream_video_bounded_range [10, 20, 30, 40, 50] 1 3 (by decide) (by decide)

/-- Helper: open-ended range body length for the video endpoint. -/
theorem streamVideo_open_len (file : List Nat) (a : Nat) (ha : a < file.length) :
    (streamVideoRangeResponse file a none).body.length =
      min INITIAL_CHUNK_CAP (file.length - a) := by
  simp only [streamVideoRangeResponse, getFileRangeBytes, List.length_take, List.length_drop]
  have hcap : 1 <= INITIAL_CHUNK_CAP := by simp [INITIAL_CHUNK_CAP]
  omega

/-- Helper: open-ended range body length for the PDF endpoint. -/
theorem streamPDF_open_len (file : List Nat) (a : Nat) (ha : a < file.length) :
    (streamPDFRangeResponse file a none).body.length = file.length - a := by
  simp only [streamPDFRangeResponse, getFileRangeBytes, List.length_take, List.length_drop]
  omega

/-- Counterexample to claim C2: the claim ranges over both streaming
endpoints (its sources cite `StreamVideoView.get` and `StreamPDFView.get`),
but `StreamPDFView` applies no 2 MiB cap to an open-ended `bytes=0-`
request: over a PDF of size `INITIAL_CHUNK_CAP + 1` the body is the whole
file, not `min(2 MiB, S - 0)` bytes. -/
theorem stream_open_range_cap_cex :
    (streamPDFRangeResponse (List.replicate (INITIAL_CHUNK_CAP + 1) 0) 0 none).body.length ≠
      min INITIAL_CHUNK_CAP ((List.replicate (INITIAL_CHUNK_CAP + 1) (0 : Nat)).length - 0) := by
  have h := streamPDF_open_len (List.replicate (INITIAL_CHUNK_CAP + 1) 0) 0
    (by rw [List.length_replicate]; omega)
  rw [h, List.length_replicate]
  have hcap : 0 < INITIAL_CHUNK_CAP := by simp [INITIAL_CHUNK_CAP]
  omega

/-- Claim C2 as amended: for an open-ended range `bytes=a-` with `a < S`,
the video streaming endpoint serves a 206 body of exactly
`min(2 MiB, S - a)` bytes, while the PDF streaming endpoint applies no cap
and serves the full remainder of `S - a` bytes. -/
theorem stream_open_range_lengths (file : List Nat) (a : Nat) (ha : a < file.length) :
    (streamVideoRangeResponse file a none).statusCode = 206 ∧
    (streamVideoRangeResponse file a none).body.length =
      min INITIAL_CHUNK_CAP (file.length - a) ∧
    (streamPDFRangeResponse file a none).statusCode = 206 ∧
    (streamPDFRangeResponse file a none).body.length = file.length - a :=
  ⟨rfl, streamVideo_open_len file a ha, rfl, streamPDF_open_len file a ha⟩

/-- Witness for amended C2: open-ended range at offset 1 over a three-byte
file (the 2 MiB cap is not binding here, `min` picks `S - a = 2`). -/
theorem stream_open_range_lengths_witness :
    (streamVideoRangeResponse [1, 2, 3] 1 none).statusCode = 206 ∧
    (streamVideoRangeResponse [1, 2, 3] 1 none).body.length =
      min INITIAL_CHUNK_CAP (List.length [1, 2, 3] - 1) ∧
    (streamPDFRangeResponse [1, 2, 3] 1 none).statusCode = 206 ∧
    (streamPDFRangeResponse [1, 2, 3] 1 none).body.length = List.length [1, 2, 3] - 1 :=
  stream_open_range_lengths [1, 2, 3] 1 (by decide)

end Safevideo

namespace Safevideo

/-! ## Transcode engine, abort and rename
(`process_video_background` services.py 712-856, `_update_progress`
services.py 703-709, `VideoAbortView.post` views.py 383-395,
`VideoRenameView.patch` views.py 323-359, telegram
`_download_single` telegram_integration/services.py 518-654) -/

/-- The catalog fields of a `Video` row relevant to processing:
`title`, `status`, `progress`, `error_message`. -/
structure VideoRow where
  title : String
  status : String
  progress : Int
  error_message : Option String
deriving DecidableEq

/-- `_update_progress` (services.py 703-709) clamps every committed
progress value with `min(progress, 100)`. -/
def updateProgressValue (p : Int) : Int := min p 100

/-- `on_drive_progress` (services.py 789-791): a Drive upload callback
fraction `frac` is committed as `42 + int(frac * 48)`, then clamped by
`_update_progress`.  Python `int()` truncates toward zero, which equals
the floor for the nonnegative fractions the resumable upload reports. -/
def drivePct (f : ℚ) : Int := updateProgressValue (42 + ⌊f * 48⌋)

/-- The progress writes of `process_video_background` before the primary
upload starts (services.py 721-786): 5 on `PROCESSING`, 7 probe, 8
thumbnail, 9 preview, 10 transcode start, 40 transcode done, 42 folder
ready. -/
def transcodePreUploadWrites : List Int := [5, 7, 8, 9, 10, 40, 42]

/-- The progress writes during the primary upload: one `drivePct` per
fraction the resumable upload reports, and `upload_to_folder`
(services.py 144-151) always invokes the callback with `1.0` after the
last chunk, committing `drivePct 1 = 90`. -/
def transcodeUploadWrites (fracs : List ℚ) : List Int :=
  (fracs ++ [1]).map drivePct

/-- The progress writes after the primary upload returns
(services.py 797-830): 92, then 95 after the thumbnail upload, 98 after
the preview upload, and 100 in the final `COMPLETED` save. -/
def transcodePostUploadWrites : List Int := [92, 95, 98, 100]

/-- The full ordered sequence of progress values committed by a
successful `process_video_background` run. -/
def transcodeTrace (fracs : List ℚ) : List Int :=
  transcodePreUploadWrites ++ transcodeUploadWrites fracs ++ transcodePostUploadWrites

/-- `_progress_cb` in `_download_single`
(telegram_integration/services.py 549-554): a Telegram download callback
with `current` bytes of `total_bytes` commits
`min(5 + int((current / (total_bytes or 1)) * 35), 40)`. -/
def downloadPct (tot : Nat) (cur : Nat) : Int :=
  min (5 + ⌊((cur : ℚ) / ((if tot = 0 then 1 else tot : Nat) : ℚ)) * 35⌋) 40

/-- The progress writes of the chat-download stage of `_download_single`
for a video message (telegram_integration/services.py 525-580): 2 on
start, 5 before the download, one `downloadPct` per callback, then 40
after the file lands. -/
def downloadStageWrites (tot : Nat) (curs : List Nat) : List Int :=
  [2, 5] ++ curs.map (downloadPct tot) ++ [40]

/-- The full ordered sequence of progress values committed to one
artifact row by a chat download of a video message followed by the
hand-off to `start_background_processing`
(telegram_integration/services.py 602-610), whose worker immediately
saves `progress = 5` (services.py 721) and continues with the transcode
band. -/
def chatVideoTrace (tot : Nat) (curs : List Nat) (fracs : List ℚ) : List Int :=
  downloadStageWrites tot curs ++ transcodeTrace fracs

/-- `VideoAbortView.post` (views.py 383-395): on a `PENDING` or
`PROCESSING` row it calls `cancel_processing` and then saves the row with
`status = 'FAILED'` and `error_message = 'Aborted by user'` (progress is
not touched); any other row is returned unchanged.  Either way the
response is HTTP 200. -/
def videoAbortPost (v : VideoRow) : VideoRow × Nat :=
  if v.status = "PENDING" ∨ v.status = "PROCESSING" then
    ({ v with status := "FAILED", error_message := some "Aborted by user" }, 200)
  else (v, 200)

/-- The four local temp paths a processing job owns: the spool file, the
thumbnail, the preview and the ffmpeg output (services.py 842-854). -/
structure JobPaths where
  tempFile : String
  thumbFile : String
  previewFile : String
  outputFile : String
deriving DecidableEq

/-- The `finally` block of `process_video_background`
(services.py 842-856): unlink every one of the job's temp files that
still exists; `fs` is the set of existing local files. -/
def cleanupTemps (fs : List String) (p : JobPaths) : List String :=
  fs.filter (fun q =>
    !(q == p.tempFile || q == p.thumbFile || q == p.previewFile || q == p.outputFile))

/-- The environment a `process_video_background` run observes: whether
`cancel_event` is set when `process.communicate()` returns, the ffmpeg
exit code with its stderr, and the upload progress fractions. -/
structure JobEnv where
  cancelAtFfmpeg : Bool
  ffmpegExit : Int
  ffmpegStderr : String
  uploadFracs : List ℚ

/-- `process_video_background` (services.py 712-856) as a function of the
row, the environment and the local filesystem, returning the final row,
the remaining local files and the committed progress trace.

* cancel observed after `communicate()` (services.py 755-761): the row is
  updated to `CANCELED`, `progress = 0`,
  `error_message = 'Processing canceled by user.'`;
* nonzero ffmpeg exit (services.py 763-765, 832-839): `FAILED` with the
  stderr diagnostic, progress left at the last committed 40;
* success: `COMPLETED` with `progress = 100`.

In every case the `finally` block removes all temp files. -/
def processVideoRun (v : VideoRow) (env : JobEnv) (paths : JobPaths) (fs : List String) :
    VideoRow × List String × List Int :=
  if env.cancelAtFfmpeg then
    ({ v with
        status := "CANCELED"
        progress := 0
        error_message := some "Processing canceled by user." },
     cleanupTemps fs paths, [5, 7, 8, 9, 10, 40, 0])
  else if env.ffmpegExit ≠ 0 then
    ({ v with
        status := "FAILED"
        progress := 40
        error_message := some ("FFmpeg failed: " ++ env.ffmpegStderr) },
     cleanupTemps fs paths, [5, 7, 8, 9, 10, 40])
  else
    ({ v with status := "COMPLETED", progress := 100 },
     cleanupTemps fs paths, transcodeTrace env.uploadFracs)

/-- Outcome of `VideoRenameView.patch`: HTTP 200 carrying the (new) title
of the serialized row, or HTTP 400. -/
inductive RenameOutcome where
  | ok (title : String)
  | badRequest (msg : String)
deriving DecidableEq

/-- Python `str.strip()` (views.py 329): remove leading and trailing
whitespace. -/
def pyStrip (s : String) : String :=
  ⟨((s.data.dropWhile Char.isWhitespace).reverse.dropWhile Char.isWhitespace).reverse⟩

/-- `VideoRenameView.patch` (views.py 323-359): strip the submitted
title; reject empty or >255-character titles with 400; then attempt the
Drive folder/file renames inside a `try` whose `except` only logs
(`driveFails` abstracts any exception there, including `DriveService()`
construction); finally save the new title on the row and answer 200 with
the updated row. -/
def videoRenamePatch (v : VideoRow) (titleInput : String) (driveFails : Bool) :
    RenameOutcome × VideoRow :=
  let newTitle := pyStrip titleInput
  if newTitle = "" then (.badRequest "Title is required", v)
  else if newTitle.length > 255 then
    (.badRequest "Title must be 255 characters or less", v)
  else
    let v' := { v with title := newTitle }
    (.ok v'.title, v')

end Safevideo

namespace Safevideo

/-- Helper: an element of `getLast?` is an element of the list. -/
theorem mem_of_mem_getLast_opt {α : Type} {l : List α} {x : α}
    (hx : x ∈ l.getLast?) : x ∈ l := by
  obtain ⟨h, rfl⟩ := List.mem_getLast?_eq_getLast hx
  exact List.getLast_mem h

/-- Helper: `drivePct` is monotone. -/
theorem drivePct_mono {a b : ℚ} (h : a ≤ b) : drivePct a ≤ drivePct b := by
  unfold drivePct updateProgressValue
  have : ⌊a * 48⌋ ≤ ⌊b * 48⌋ := Int.floor_le_floor (by nlinarith)
  omega

/-- Helper: `drivePct` of a nonnegative fraction is at least 42. -/
theorem drivePct_ge_42 {f : ℚ} (h : 0 ≤ f) : 42 ≤ drivePct f := by
  unfold drivePct updateProgressValue
  have : 0 ≤ ⌊f * 48⌋ := Int.floor_nonneg.mpr (by positivity)
  omega

/-- Helper: `drivePct` of a fraction at most 1 is at most 90. -/
theorem drivePct_le_90 {f : ℚ} (h : f ≤ 1) : drivePct f ≤ 90 := by
  unfold drivePct updateProgressValue
  have h48 : ⌊f * 48⌋ ≤ 48 := by
    calc ⌊f * 48⌋ ≤ ⌊(48 : ℚ)⌋ := Int.floor_le_floor (by nlinarith)
      _ = 48 := by norm_num
  omega

/-- Helper: `drivePct` never exceeds 100. -/
theorem drivePct_le_100 (f : ℚ) : drivePct f ≤ 100 := min_le_right _ _

/-- Helper: the guaranteed final upload callback commits 90. -/
theorem drivePct_one : drivePct 1 = 90 := by
  unfold drivePct updateProgressValue
  norm_num

/-- Helper: `downloadPct` is monotone in the byte counter. -/
theorem downloadPct_mono (tot : Nat) {a b : Nat} (h : a ≤ b) :
    downloadPct tot a ≤ downloadPct tot b := by
  unfold downloadPct
  have hd : (0 : ℚ) ≤ ((if tot = 0 then 1 else tot : Nat) : ℚ) := by positivity
  have hfl : ⌊((a : Nat) : ℚ) / ((if tot = 0 then 1 else tot : Nat) : ℚ) * 35⌋ ≤
      ⌊((b : Nat) : ℚ) / ((if tot = 0 then 1 else tot : Nat) : ℚ) * 35⌋ := by
    apply Int.floor_le_floor
    have : ((a : Nat) : ℚ) ≤ ((b : Nat) : ℚ) := by exact_mod_cast h
    gcongr
  omega

/-- Helper: `downloadPct` is at least 5. -/
theorem downloadPct_ge_5 (tot cur : Nat) : 5 ≤ downloadPct tot cur := by
  unfold downloadPct
  have : (0 : Int) ≤ ⌊((cur : Nat) : ℚ) / ((if tot = 0 then 1 else tot : Nat) : ℚ) * 35⌋ := by
    apply Int.floor_nonneg.mpr
    positivity
  omega

/-- Helper: `downloadPct` never exceeds 40. -/
theorem downloadPct_le_40 (tot cur : Nat) : downloadPct tot cur ≤ 40 := min_le_right _ _

/-- Helper: the download-stage writes are monotone non-decreasing when the
byte counters are. -/
theorem chain_downloadStage (tot : Nat) (curs : List Nat)
    (hcurs : List.Chain' (· ≤ ·) curs) :
    List.Chain' (· ≤ ·) (downloadStageWrites tot curs) := by
  unfold downloadStageWrites
  have hmap : List.Chain' (· ≤ ·) (curs.map (downloadPct tot)) := by
    rw [List.chain'_map]
    exact hcurs.imp (fun a b hab => downloadPct_mono tot hab)
  have htail : List.Chain' (· ≤ ·) (curs.map (downloadPct tot) ++ [40]) := by
    refine List.Chain'.append hmap (List.chain'_singleton _) ?_
    intro x hx y hy
    have hx' := mem_of_mem_getLast_opt hx
    obtain ⟨c, _, rfl⟩ := List.mem_map.mp hx'
    have hy' : (40 : Int) = y := by simpa using hy
    rw [← hy']
    exact downloadPct_le_40 tot c
  rw [List.append_assoc]
  simp only [List.cons_append, List.nil_append]
  rw [List.chain'_cons, List.chain'_cons']
  refine ⟨by norm_num, ?_, htail⟩
  intro y hy
  have hy' := List.mem_of_mem_head? hy
  rcases List.mem_append.mp hy' with hmem | hmem
  · obtain ⟨c, _, rfl⟩ := List.mem_map.mp hmem
    exact le_trans (by norm_num) (downloadPct_ge_5 tot c)
  · have : y = 40 := by simpa using hmem
    omega

/-- Helper: the transcode trace is monotone non-decreasing when the upload
fractions are monotone and lie in `[0, 1]`. -/
theorem chain_transcodeTrace (fracs : List ℚ)
    (hfr : List.Chain' (· ≤ ·) fracs)
    (hfr01 : ∀ f ∈ fracs, 0 ≤ f ∧ f ≤ 1) :
    List.Chain' (· ≤ ·) (transcodeTrace fracs) := by
  unfold transcodeTrace transcodeUploadWrites transcodePreUploadWrites transcodePostUploadWrites
  have hfr1 : List.Chain' (· ≤ ·) (fracs ++ [1]) := by
    refine List.Chain'.append hfr (List.chain'_singleton _) ?_
    intro x hx y hy
    have hx' := mem_of_mem_getLast_opt hx
    have hy' : (1 : ℚ) = y := by simpa using hy
    rw [← hy']
    exact (hfr01 x hx').2
  have hmap : List.Chain' (· ≤ ·) ((fracs ++ [1]).map drivePct) := by
    rw [List.chain'_map]
    exact hfr1.imp (fun a b hab => drivePct_mono hab)
  have hup_mem : ∀ y ∈ (fracs ++ [1]).map drivePct, 42 ≤ y ∧ y ≤ 90 := by
    intro y hy
    obtain ⟨f, hf, rfl⟩ := List.mem_map.mp hy
    rcases List.mem_append.mp hf with hf' | hf'
    · exact ⟨drivePct_ge_42 (hfr01 f hf').1, drivePct_le_90 (hfr01 f hf').2⟩
    · have : f = 1 := by simpa using hf'
      subst this
      rw [drivePct_one]
      exact ⟨by norm_num, le_refl _⟩
  have htail : List.Chain' (· ≤ ·)
      ((fracs ++ [1]).map drivePct ++ ([92, 95, 98, 100] : List Int)) := by
    refine List.Chain'.append hmap (by simp [List.chain'_cons]) ?_
    intro x hx y hy
    have hx' := mem_of_mem_getLast_opt hx
    have hy' : (92 : Int) = y := by simpa using hy
    rw [← hy']
    exact le_trans (hup_mem x hx').2 (by norm_num)
  rw [List.append_assoc]
  simp only [List.cons_append, List.nil_append]
  rw [List.chain'_cons, List.chain'_cons, List.chain'_cons, List.chain'_cons, List.chain'_cons,
    List.chain'_cons, List.chain'_cons']
  refine ⟨by norm_num, by norm_num, by norm_num, by norm_num, by norm_num, by norm_num, ?_, htail⟩
  intro y hy
  have hy' := List.mem_of_mem_head? hy
  rcases List.mem_append.mp hy' with hmem | hmem
  · exact (hup_mem y hmem).1
  · have : y = 92 ∨ y = 95 ∨ y = 98 ∨ y = 100 := by simpa using hmem
    rcases this with rfl | rfl | rfl | rfl <;> norm_num

/-- Helper: every value in the combined chat-download + transcode trace is
at most 100. -/
theorem chatVideoTrace_le_100 (tot : Nat) (curs : List Nat) (fracs : List ℚ) :
    ∀ p ∈ chatVideoTrace tot curs fracs, p ≤ 100 := by
  intro p hp
  unfold chatVideoTrace at hp
  rcases List.mem_append.mp hp with h | h
  · unfold downloadStageWrites at h
    rcases List.mem_append.mp h with h | h
    · rcases List.mem_append.mp h with h | h
      · have : p = 2 ∨ p = 5 := by simpa using h
        rcases this with rfl | rfl <;> norm_num
      · obtain ⟨c, _, rfl⟩ := List.mem_map.mp h
        exact le_trans (downloadPct_le_40 tot c) (by norm_num)
    · have : p = 40 := by simpa using h
      subst this
      norm_num
  · unfold transcodeTrace at h
    rcases List.mem_append.mp h with h | h
    · rcases List.mem_append.mp h with h | h
      · have : p = 5 ∨ p = 7 ∨ p = 8 ∨ p = 9 ∨ p = 10 ∨ p = 40 ∨ p = 42 := by
          simpa [transcodePreUploadWrites] using h
        rcases this with rfl | rfl | rfl | rfl | rfl | rfl | rfl <;> norm_num
      · unfold transcodeUploadWrites at h
        obtain ⟨f, _, rfl⟩ := List.mem_map.mp h
        exact drivePct_le_100 f
    · have : p = 92 ∨ p = 95 ∨ p = 98 ∨ p = 100 := by
        simpa [transcodePostUploadWrites] using h
      rcases this with rfl | rfl | rfl | rfl <;> norm_num

/-- Helper: the combined chat trace is never monotone — the transcode
engine restarts at 5 right after the download stage committed 40. -/
theorem chatVideoTrace_not_chain (tot : Nat) (curs : List Nat) (fracs : List ℚ) :
    ¬ List.Chain' (· ≤ ·) (chatVideoTrace tot curs fracs) := by
  unfold chatVideoTrace
  intro h
  rw [List.chain'_append] at h
  have hlink := h.2.2
  have hlast : (downloadStageWrites tot curs).getLast? = some 40 := by
    unfold downloadStageWrites
    exact List.getLast?_concat _
  have hhead : (transcodeTrace fracs).head? = some (5 : Int) := by
    unfold transcodeTrace transcodePreUploadWrites
    rfl
  have h405 : (40 : Int) ≤ 5 := by
    refine hlink 40 ?_ 5 ?_
    · rw [hlast]; rfl
    · rw [hhead]; rfl
  omega

/-- Helper: the progress write issued right after the primary upload
finishes (the head of what follows the upload-callback segment) is 92. -/
theorem transcode_write_after_upload (fracs : List ℚ) :
    ((transcodeTrace fracs).drop
        (transcodePreUploadWrites.length + (transcodeUploadWrites fracs).length)).head? =
      some 92 := by
  unfold transcodeTrace
  rw [← List.length_append, List.drop_left]
  rfl

end Safevideo

namespace Safevideo

/-- Counterexample to claim C6: the claim covers "every cancellation path,
including the abort operation", but `VideoAbortView.post` on an active
(`PROCESSING`) artifact marks it `FAILED` with `'Aborted by user'` — not
`CANCELED` — and leaves `progress` untouched (here 37, not 0). -/
theorem abort_marks_failed_cex :
    (videoAbortPost
        { title := "t", status := "PROCESSING", progress := 37, error_message := none }).1.status
        = "FAILED" ∧
    (videoAbortPost
        { title := "t", status := "PROCESSING", progress := 37, error_message := none }).1.status
        ≠ "CANCELED" ∧
    (videoAbortPost
        { title := "t", status := "PROCESSING", progress := 37, error_message := none }).1.progress
        = 37 := by
  refine ⟨?_, by decide, ?_⟩ <;> rfl

/-- Claim C6 as amended: a job whose cancel flag is observed inside
`process_video_background` finalizes the row to `CANCELED` with
`progress = 0` and all four of its temporary local files are deleted;
the HTTP abort endpoint, by contrast, marks an active
(`PENDING`/`PROCESSING`) artifact `FAILED` with error
`'Aborted by user'` and returns 200, leaving `progress` unchanged. -/
theorem cancel_finalization (v : VideoRow) (env : JobEnv) (paths : JobPaths)
    (fs : List String) (hc : env.cancelAtFfmpeg = true) :
    ((processVideoRun v env paths fs).1.status = "CANCELED" ∧
     (processVideoRun v env paths fs).1.progress = 0 ∧
     (processVideoRun v env paths fs).1.error_message =
       some "Processing canceled by user." ∧
     paths.tempFile ∉ (processVideoRun v env paths fs).2.1 ∧
     paths.thumbFile ∉ (processVideoRun v env paths fs).2.1 ∧
     paths.previewFile ∉ (processVideoRun v env paths fs).2.1 ∧
     paths.outputFile ∉ (processVideoRun v env paths fs).2.1) ∧
    (∀ w : VideoRow, w.status = "PENDING" ∨ w.status = "PROCESSING" →
      videoAbortPost w =
        ({ w with status := "FAILED", error_message := some "Aborted by user" }, 200)) := by
  constructor
  · unfold processVideoRun
    rw [if_pos hc]
    refine ⟨rfl, rfl, rfl, ?_, ?_, ?_, ?_⟩ <;> simp [cleanupTemps]
  · intro w hw
    unfold videoAbortPost
    rw [if_pos hw]

/-- Witness for amended C6: a concrete cancelled run and a concrete abort. -/
theorem cancel_finalization_witness :
    ((processVideoRun
        { title := "t", status := "PROCESSING", progress := 12, error_message := none }
        { cancelAtFfmpeg := true, ffmpegExit := 0, ffmpegStderr := "", uploadFracs := [] }
        { tempFile := "a", thumbFile := "b", previewFile := "c", outputFile := "d" }
        ["a", "x", "c"]).1.status = "CANCELED" ∧
     (processVideoRun
        { title := "t", status := "PROCESSING", progress := 12, error_message := none }
        { cancelAtFfmpeg := true, ffmpegExit := 0, ffmpegStderr := "", uploadFracs := [] }
        { tempFile := "a", thumbFile := "b", previewFile := "c", outputFile := "d" }
        ["a", "x", "c"]).1.progress = 0 ∧
     (processVideoRun
        { title := "t", status := "PROCESSING", progress := 12, error_message := none }
        { cancelAtFfmpeg := true, ffmpegExit := 0, ffmpegStderr := "", uploadFracs := [] }
        { tempFile := "a", thumbFile := "b", previewFile := "c", outputFile := "d" }
        ["a", "x", "c"]).1.error_message = some "Processing canceled by user." ∧
     "a" ∉ (processVideoRun
        { title := "t", status := "PROCESSING", progress := 12, error_message := none }
        { cancelAtFfmpeg := true, ffmpegExit := 0, ffmpegStderr := "", uploadFracs := [] }
        { tempFile := "a", thumbFile := "b", previewFile := "c", outputFile := "d" }
        ["a", "x", "c"]).2.1 ∧
     "b" ∉ (processVideoRun
        { title := "t", status := "PROCESSING", progress := 12, error_message := none }
        { cancelAtFfmpeg := true, ffmpegExit := 0, ffmpegStderr := "", uploadFracs := [] }
        { tempFile := "a", thumbFile := "b", previewFile := "c", outputFile := "d" }
        ["a", "x", "c"]).2.1 ∧
     "c" ∉ (processVideoRun
        { title := "t", status := "PROCESSING", progress := 12, error_message := none }
        { cancelAtFfmpeg := true, ffmpegExit := 0, ffmpegStderr := "", uploadFracs := [] }
        { tempFile := "a", thumbFile := "b", previewFile := "c", outputFile := "d" }
        ["a", "x", "c"]).2.1 ∧
     "d" ∉ (processVideoRun
        { title := "t", status := "PROCESSING", progress := 12, error_message := none }
        { cancelAtFfmpeg := true, ffmpegExit := 0, ffmpegStderr := "", uploadFracs := [] }
        { tempFile := "a", thumbFile := "b", previewFile := "c", outputFile := "d" }
        ["a", "x", "c"]).2.1) ∧
    (∀ w : VideoRow, w.status = "PENDING" ∨ w.status = "PROCESSING" →
      videoAbortPost w =
        ({ w with status := "FAILED", error_message := some "Aborted by user" }, 200)) :=
  cancel_finalization
    { title := "t", status := "PROCESSING", progress := 12, error_message := none }
    { cancelAtFfmpeg := true, ffmpegExit := 0, ffmpegStderr := "", uploadFracs := [] }
    { tempFile := "a", thumbFile := "b", previewFile := "c", outputFile := "d" }
    ["a", "x", "c"] rfl

/-- Counterexample to claim C7: the value committed immediately after the
primary upload finishes is 92 (services.py 797), not the 90 the claim
asserts; 90 is only committed by the upload callback at fraction 1.0. -/
theorem transcode_after_upload_cex :
    ((transcodeTrace []).drop
        (transcodePreUploadWrites.length + (transcodeUploadWrites []).length)).head? =
      some 92 ∧ (92 : Int) ≠ 90 :=
  ⟨transcode_write_after_upload [], by decide⟩

/-- Claim C7 as amended: every successful transcode run's progress trace
passes through 5, 10, 40, 42, 90, 95, 98 and 100 (90 is committed by the
guaranteed final upload callback), but the value written immediately
after the primary upload returns is 92, not 90. -/
theorem transcode_progress_band (fracs : List ℚ) :
    (5 : Int) ∈ transcodeTrace fracs ∧ (10 : Int) ∈ transcodeTrace fracs ∧
    (40 : Int) ∈ transcodeTrace fracs ∧ (42 : Int) ∈ transcodeTrace fracs ∧
    (90 : Int) ∈ transcodeTrace fracs ∧ (95 : Int) ∈ transcodeTrace fracs ∧
    (98 : Int) ∈ transcodeTrace fracs ∧ (100 : Int) ∈ transcodeTrace fracs ∧
    ((transcodeTrace fracs).drop
        (transcodePreUploadWrites.length + (transcodeUploadWrites fracs).length)).head? =
      some 92 := by
  have h90 : (90 : Int) ∈ transcodeUploadWrites fracs := by
    unfold transcodeUploadWrites
    exact List.mem_map.mpr ⟨1, by simp, drivePct_one⟩
  have hmem90 : (90 : Int) ∈ transcodeTrace fracs := by
    unfold transcodeTrace
    exact List.mem_append.mpr (Or.inl (List.mem_append.mpr (Or.inr h90)))
  refine ⟨?_, ?_, ?_, ?_, hmem90, ?_, ?_, ?_, transcode_write_after_upload fracs⟩ <;>
    simp [transcodeTrace, transcodePreUploadWrites, transcodePostUploadWrites]

/-- Counterexample to claim C8: for a chat-downloaded video handed off to
the transcode engine, the committed progress sequence is not monotone:
the download stage ends at 40, then `process_video_background`
immediately writes 5 again. -/
theorem chat_progress_not_monotone_cex :
    chatVideoTrace 1 [] [] =
      ([2, 5, 40, 5, 7, 8, 9, 10, 40, 42, 90, 92, 95, 98, 100] : List Int) ∧
    ¬ List.Chain' (· ≤ ·) (chatVideoTrace 1 [] []) := by
  constructor
  · unfold chatVideoTrace downloadStageWrites transcodeTrace transcodeUploadWrites
      transcodePreUploadWrites transcodePostUploadWrites
    simp [drivePct_one]
  · exact chatVideoTrace_not_chain 1 [] []

/-- Claim C8 as amended: within each stage — the chat download, and the
transcode attempt — the committed progress values are monotone
non-decreasing (given the monotone byte counters / upload fractions the
clients report) and never exceed 100; but across the hand-off the
combined per-row sequence is never monotone, because the transcode engine
resets progress from 40 back to 5. -/
theorem chat_progress_monotone_per_stage (tot : Nat) (curs : List Nat) (fracs : List ℚ)
    (hcurs : List.Chain' (· ≤ ·) curs)
    (hfr : List.Chain' (· ≤ ·) fracs)
    (hfr01 : ∀ f ∈ fracs, 0 ≤ f ∧ f ≤ 1) :
    List.Chain' (· ≤ ·) (downloadStageWrites tot curs) ∧
    List.Chain' (· ≤ ·) (transcodeTrace fracs) ∧
    (∀ p ∈ chatVideoTrace tot curs fracs, p ≤ 100) ∧
    ¬ List.Chain' (· ≤ ·) (chatVideoTrace tot curs fracs) :=
  ⟨chain_downloadStage tot curs hcurs, chain_transcodeTrace fracs hfr hfr01,
   chatVideoTrace_le_100 tot curs fracs, chatVideoTrace_not_chain tot curs fracs⟩

/-- Witness for amended C8: a concrete download of 10 bytes reported at
0 then 4, and one intermediate upload fraction 1/2. -/
theorem chat_progress_monotone_per_stage_witness :
    List.Chain' (· ≤ ·) (downloadStageWrites 10 [0, 4]) ∧
    List.Chain' (· ≤ ·) (transcodeTrace [(1 : ℚ)/2]) ∧
    (∀ p ∈ chatVideoTrace 10 [0, 4] [(1 : ℚ)/2], p ≤ 100) ∧
    ¬ List.Chain' (· ≤ ·) (chatVideoTrace 10 [0, 4] [(1 : ℚ)/2]) :=
  chat_progress_monotone_per_stage 10 [0, 4] [(1 : ℚ)/2]
    (by simp [List.chain'_cons])
    (List.chain'_singleton _)
    (by intro f hf; simp at hf; subst hf; norm_num)

/-- Claim C10: `VideoRenameView.patch` always persists a valid new title
(non-empty after stripping, at most 255 characters) to the catalog row
and answers 200 with that title, whether or not the Drive folder/file
renames fail — the Drive failure is only logged. -/
theorem rename_always_persists_title (v : VideoRow) (titleInput : String)
    (driveFails : Bool) (hne : pyStrip titleInput ≠ "")
    (hlen : (pyStrip titleInput).length ≤ 255) :
    videoRenamePatch v titleInput driveFails =
      (.ok (pyStrip titleInput), { v with title := pyStrip titleInput }) := by
  have h2 : ¬((pyStrip titleInput).length > 255) := by omega
  simp [videoRenamePatch, hne, h2]

/-- Witness for C10: renaming to `"  New Title  "` persists the stripped
title `"New Title"` even when the Drive rename fails. -/
theorem rename_always_persists_title_witness :
    videoRenamePatch
        { title := "old", status := "COMPLETED", progress := 100, error_message := none }
        "  New Title  " true =
      (.ok (pyStrip "  New Title  "),
        { title := pyStrip "  New Title  ", status := "COMPLETED", progress := 100,
          error_message := none }) :=
  rename_always_persists_title
    { title := "old", status := "COMPLETED", progress := 100, error_message := none }
    "  New Title  " true (by decide) (by decide)

end Safevideo

namespace Safevideo

/-! ## Two-way reconciliation (`SyncDriveVideosView.post` views.py 441-722,
`DriveService.folder_exists_in_path` services.py 298-323,
`DriveService.list_folder_files` services.py 376-466,
`DriveService.list_folder_pdfs` services.py 468-549) -/

/-- A catalog `Video` row, with the fields `SyncDriveVideosView` reads and
writes.  `user`/`organization`/`chapter` are the scope foreign keys
(category is determined by the organization), `file_id` /
`drive_folder_id` are nullable Drive ids (Python also treats the empty
string as falsy, which `optTruthy` models), `duration` is the float
duration in seconds. -/
structure VRow where
  user : Nat
  organization : Nat
  chapter : Option Nat
  title : String
  file_id : Option String
  drive_folder_id : Option String
  folder_path : Option String
  file_size : Nat
  mime_type : Option String
  thumbnail : Option String
  preview : Option String
  duration : Option ℚ
  status : String
deriving DecidableEq

/-- A catalog `PDFDocument` row, with the fields the sync view touches. -/
structure PRow where
  user : Nat
  organization : Nat
  chapter : Option Nat
  title : String
  file_id : Option String
  drive_folder_id : Option String
  folder_path : Option String
  file_size : Nat
deriving DecidableEq

/-- One flattened entry of `list_folder_files` / `list_folder_pdfs`
(services.py 376-549): the Drive file id and name, plus — for files found
inside a wrapping subfolder — the subfolder id and any
`thumbnail.jpg` / `preview.mp4` companions, and the
`videoMediaMetadata.durationMillis` value when Drive surfaces it. -/
structure DriveFile where
  id : String
  name : String
  size : Nat
  mimeType : Option String
  driveFolderId : Option String
  thumbnailId : Option String
  previewId : Option String
  durationMillis : Option Nat
deriving DecidableEq

/-- The object-store state one reconciliation run observes (assumed
unchanged between the two runs of the idempotence claim):
`folderId` is the result of `folder_exists_in_path(folder_path)`,
`videoFiles` / `pdfFiles` the listings of the scope folder, and `liveIds`
the set of ids for which `file_exists` answers true. -/
structure DriveState where
  folderId : Option String
  videoFiles : List DriveFile
  pdfFiles : List DriveFile
  liveIds : List String
deriving DecidableEq

/-- The reconciliation scope: the requesting user, the organization, and
the optional chapter. -/
structure Scope where
  user : Nat
  organization : Nat
  chapter : Option Nat
deriving DecidableEq

/-- The catalog rows the sync view can touch. -/
structure Catalog where
  videos : List VRow
  pdfs : List PRow
deriving DecidableEq

/-- The four counters of the sync response (views.py 711-718). -/
structure SyncCounters where
  synced : Nat
  deleted : Nat
  pdf_synced : Nat
  pdf_deleted : Nat
deriving DecidableEq

/-- Python truthiness of a nullable id field: `None` and `''` are falsy. -/
def optTruthy : Option String → Bool
  | none => false
  | some s => s != ""

/-- The purge / scope filter `{'organization': ..., 'user': ...}` plus
`{'chapter': ...}` when a chapter was requested (views.py 475-480,
512-518). -/
def vMatchesScope (sc : Scope) (v : VRow) : Bool :=
  v.user == sc.user && v.organization == sc.organization &&
    (match sc.chapter with
     | none => true
     | some c => v.chapter == some c)

/-- The same scope filter for PDF rows (views.py 644-650). -/
def pMatchesScope (sc : Scope) (p : PRow) : Bool :=
  p.user == sc.user && p.organization == sc.organization &&
    (match sc.chapter with
     | none => true
     | some c => p.chapter == some c)

/-- `existing_filter`: scope plus `file_id__isnull=False` (views.py 512-516). -/
def vInExistingFilter (sc : Scope) (v : VRow) : Bool :=
  vMatchesScope sc v && v.file_id.isSome

/-- `pdf_filter`: scope plus `file_id__isnull=False` (views.py 644-648). -/
def pInPdfFilter (sc : Scope) (p : PRow) : Bool :=
  pMatchesScope sc p && p.file_id.isSome

/-- `{f.get('id') for f in drive_files if f.get('id')}` (views.py 503):
keep only truthy ids. -/
def truthyIds (l : List String) : List String := l.filter (fun s => s != "")

/-- The flattened video file ids of the listing. -/
def driveVideoIds (d : DriveState) : List String :=
  truthyIds (d.videoFiles.map (·.id))

/-- `{f.get('drive_folder_id') for f in drive_files if f.get('drive_folder_id')}`
(views.py 505-507). -/
def driveVideoSubfolderIds (d : DriveState) : List String :=
  truthyIds (d.videoFiles.filterMap (·.driveFolderId))

/-- The PDF file ids of the listing (views.py 638). -/
def drivePdfIds (d : DriveState) : List String :=
  truthyIds (d.pdfFiles.map (·.id))

/-- The PDF subfolder ids of the listing (views.py 639-641). -/
def drivePdfSubfolderIds (d : DriveState) : List String :=
  truthyIds (d.pdfFiles.filterMap (·.driveFolderId))

/-- `DriveService.file_exists` (services.py 290-296) against the fixed
store state. -/
def fileExistsOnDrive (d : DriveState) (id : String) : Bool :=
  d.liveIds.contains id

/-- The per-row presence check of sync phase 3 (views.py 523-538): present
when `file_id` is in the listing or `drive_folder_id` is among the listed
subfolders; otherwise double-checked through `file_exists` on the folder
id (preferred) or the file id. -/
def vStillOnDrive (d : DriveState) (v : VRow) : Bool :=
  if optTruthy v.file_id && (driveVideoIds d).contains (v.file_id.getD "")
      || optTruthy v.drive_folder_id &&
          (driveVideoSubfolderIds d).contains (v.drive_folder_id.getD "") then
    true
  else if optTruthy v.drive_folder_id then
    fileExistsOnDrive d (v.drive_folder_id.getD "")
  else if optTruthy v.file_id then
    fileExistsOnDrive d (v.file_id.getD "")
  else
    false

/-- The per-row presence check of sync phase 5b (views.py 653-664). -/
def pStillOnDrive (d : DriveState) (p : PRow) : Bool :=
  if optTruthy p.file_id && (drivePdfIds d).contains (p.file_id.getD "")
      || optTruthy p.drive_folder_id &&
          (drivePdfSubfolderIds d).contains (p.drive_folder_id.getD "") then
    true
  else if optTruthy p.drive_folder_id then
    fileExistsOnDrive d (p.drive_folder_id.getD "")
  else if optTruthy p.file_id then
    fileExistsOnDrive d (p.file_id.getD "")
  else
    false

/-- Phase-3 keep predicate: a row is deleted exactly when it matches
`existing_filter` and is not still on Drive (views.py 540-543). -/
def phase3Keep (sc : Scope) (d : DriveState) (v : VRow) : Bool :=
  !(vInExistingFilter sc v && !vStillOnDrive d v)

/-- Phase-5b keep predicate for PDFs (views.py 666-669). -/
def phase5Keep (sc : Scope) (d : DriveState) (p : PRow) : Bool :=
  !(pInPdfFilter sc p && !pStillOnDrive d p)

/-- `remaining_file_ids` (views.py 548-551 and 672-674): the `file_id`
values of the rows matching the filter, re-read after the deletions. -/
def vRemainingIds (sc : Scope) (videos : List VRow) : List String :=
  videos.filterMap (fun v => if vInExistingFilter sc v then v.file_id else none)

/-- `remaining_pdf_file_ids` (views.py 672-674). -/
def pRemainingIds (sc : Scope) (pdfs : List PRow) : List String :=
  pdfs.filterMap (fun p => if pInPdfFilter sc p then p.file_id else none)

/-- The row `Video.objects.create(...)` builds for an imported Drive file
(views.py 569-584). -/
def mkSyncedVideo (sc : Scope) (path : String) (f : DriveFile) : VRow :=
  { user := sc.user
    organization := sc.organization
    chapter := sc.chapter
    title := f.name
    file_id := some f.id
    drive_folder_id := f.driveFolderId
    folder_path := some path
    file_size := f.size
    mime_type := f.mimeType
    thumbnail := f.thumbnailId
    preview := f.previewId
    duration := f.durationMillis.map (fun ms => (ms : ℚ) / 1000)
    status := "COMPLETED" }

/-- The row `PDFDocument.objects.create(...)` builds for an imported
Drive PDF (views.py 681-691). -/
def mkSyncedPdf (sc : Scope) (path : String) (f : DriveFile) : PRow :=
  { user := sc.user
    organization := sc.organization
    chapter := sc.chapter
    title := f.name
    file_id := some f.id
    drive_folder_id := f.driveFolderId
    folder_path := some path
    file_size := f.size }

/-- `drive_file_map = {f.get('id'): f for f in drive_files if f.get('id')}`
(views.py 603) as a lookup: a Python dict keeps the last entry for a
duplicated key, hence the `reverse`. -/
def driveFileMapGet (fs : List DriveFile) (fid : String) : Option DriveFile :=
  ((fs.filter (fun f => f.id != "")).reverse).find? (fun f => f.id == fid)

/-- The duration back-fill applied to the pre-existing rows
(views.py 602-616): a scope-matching `COMPLETED` row with a non-null
`file_id` and no duration gets `durationMillis / 1000` from its Drive
listing entry when that entry carries `videoMediaMetadata`. -/
def vBackfillDuration (d : DriveState) (sc : Scope) (v : VRow) : VRow :=
  if vMatchesScope sc v && v.status == "COMPLETED" && v.file_id.isSome &&
      v.duration.isNone then
    match driveFileMapGet d.videoFiles (v.file_id.getD "") with
    | some f =>
      match f.durationMillis with
      | some ms => { v with duration := some ((ms : ℚ) / 1000) }
      | none => v
    | none => v
  else v

/-- Phases 2-5 of `SyncDriveVideosView.post` (views.py 499-718), reached
when the scope folder resolves on Drive: delete the catalog videos whose
Drive file is gone, import the listed Drive videos the catalog does not
know, back-fill durations on the pre-existing rows (the
`.exclude(id__in=new_video_ids)` is modelled by mapping the back-fill
over the survivors only), then the same delete/import pass for PDFs.
The enqueued `start_sync_metadata` background jobs touch the catalog only
asynchronously and are not part of this request's transformation. -/
def syncPhases (sc : Scope) (path : String) (d : DriveState) (cat : Catalog) :
    Catalog × SyncCounters :=
  let survivors := cat.videos.filter (phase3Keep sc d)
  let deletedCount := cat.videos.countP (fun v => vInExistingFilter sc v && !vStillOnDrive d v)
  let newFiles := d.videoFiles.filter (fun f => !(vRemainingIds sc survivors).contains f.id)
  let videosAfter := survivors.map (vBackfillDuration d sc) ++ newFiles.map (mkSyncedVideo sc path)
  let pdfSurvivors := cat.pdfs.filter (phase5Keep sc d)
  let pdfDeletedCount := cat.pdfs.countP (fun p => pInPdfFilter sc p && !pStillOnDrive d p)
  let newPdfFiles := d.pdfFiles.filter (fun f => !(pRemainingIds sc pdfSurvivors).contains f.id)
  ({ videos := videosAfter, pdfs := pdfSurvivors ++ newPdfFiles.map (mkSyncedPdf sc path) },
   { synced := newFiles.length
     deleted := deletedCount
     pdf_synced := newPdfFiles.length
     pdf_deleted := pdfDeletedCount })

/-- `SyncDriveVideosView.post` (views.py 441-722) for a resolved scope:
phase 1 resolves the scope folder path; if it is gone, every video and
PDF row matching the purge filter (owner and scope) is deleted and the
response carries the deletion counts with zero imports; otherwise the
diff / import phases run. -/
def syncDrivePost (sc : Scope) (path : String) (d : DriveState) (cat : Catalog) :
    Catalog × SyncCounters :=
  match d.folderId with
  | none =>
    ({ videos := cat.videos.filter (fun v => !vMatchesScope sc v)
       pdfs := cat.pdfs.filter (fun p => !pMatchesScope sc p) },
     { synced := 0
       deleted := cat.videos.countP (fun v => vMatchesScope sc v)
       pdf_synced := 0
       pdf_deleted := cat.pdfs.countP (fun p => pMatchesScope sc p) })
  | some _ => syncPhases sc path d cat

end Safevideo

namespace Safevideo

/-- Claim C5: when the scope folder path no longer resolves on Drive
(`folder_exists_in_path` returns null), the sync run purges every catalog
row — video and PDF — matching that exact path, owner and scope (the code
in fact purges all rows matching owner and scope, a superset), returns
the deletion counts with zero imports, and performs none of the later
diff / import phases: no row is added and the surviving rows are
exactly the rows outside the scope. -/
theorem sync_purge_on_missing_folder (sc : Scope) (path : String) (d : DriveState)
    (cat : Catalog) (hres : d.folderId = none) :
    (∀ v ∈ cat.videos, vMatchesScope sc v = true → v.folder_path = some path →
      v ∉ (syncDrivePost sc path d cat).1.videos) ∧
    (∀ p ∈ cat.pdfs, pMatchesScope sc p = true → p.folder_path = some path →
      p ∉ (syncDrivePost sc path d cat).1.pdfs) ∧
    (∀ v ∈ (syncDrivePost sc path d cat).1.videos, vMatchesScope sc v = false) ∧
    (∀ p ∈ (syncDrivePost sc path d cat).1.pdfs, pMatchesScope sc p = false) ∧
    (syncDrivePost sc path d cat).2 =
      { synced := 0
        deleted := cat.videos.countP (fun v => vMatchesScope sc v)
        pdf_synced := 0
        pdf_deleted := cat.pdfs.countP (fun p => pMatchesScope sc p) } ∧
    (∀ v ∈ (syncDrivePost sc path d cat).1.videos, v ∈ cat.videos) ∧
    (∀ p ∈ (syncDrivePost sc path d cat).1.pdfs, p ∈ cat.pdfs) := by
  simp only [syncDrivePost, hres]
  refine ⟨?_, ?_, ?_, ?_, by trivial, ?_, ?_⟩
  · intro v _ hmatch _ hmem
    have := (List.mem_filter.mp hmem).2
    simp [hmatch] at this
  · intro p _ hmatch _ hmem
    have := (List.mem_filter.mp hmem).2
    simp [hmatch] at this
  · intro v hmem
    have := (List.mem_filter.mp hmem).2
    simpa using this
  · intro p hmem
    have := (List.mem_filter.mp hmem).2
    simpa using this
  · intro v hmem
    exact (List.mem_filter.mp hmem).1
  · intro p hmem
    exact (List.mem_filter.mp hmem).1

/-- A sample video row inside the scope `(user 1, org 2)` at path
`"Cat/Org"`, for the C5 witness. -/
def samplePurgeVideo : VRow :=
  { user := 1, organization := 2, chapter := none, title := "v"
    file_id := some "fid1", drive_folder_id := none, folder_path := some "Cat/Org"
    file_size := 10, mime_type := some "video/mp4", thumbnail := none
    preview := none, duration := none, status := "COMPLETED" }

/-- A sample video row of a different owner, for the C5 witness. -/
def sampleOtherVideo : VRow :=
  { user := 3, organization := 2, chapter := none, title := "w"
    file_id := some "fid2", drive_folder_id := none, folder_path := some "Cat/Org"
    file_size := 11, mime_type := some "video/mp4", thumbnail := none
    preview := none, duration := none, status := "COMPLETED" }

/-- A sample PDF row inside the scope, for the C5 witness. -/
def samplePurgePdf : PRow :=
  { user := 1, organization := 2, chapter := none, title := "p.pdf"
    file_id := some "fid3", drive_folder_id := none, folder_path := some "Cat/Org"
    file_size := 12 }

/-- The C5 witness drive state: the scope folder path does not resolve. -/
def samplePurgeDrive : DriveState :=
  { folderId := none, videoFiles := [], pdfFiles := [], liveIds := [] }

/-- The C5 witness catalog. -/
def samplePurgeCat : Catalog :=
  { videos := [samplePurgeVideo, sampleOtherVideo], pdfs := [samplePurgePdf] }

/-- Witness for C5 at a concrete scope, path, drive state and catalog. -/
theorem sync_purge_on_missing_folder_witness :
    (∀ v ∈ samplePurgeCat.videos, vMatchesScope ⟨1, 2, none⟩ v = true →
      v.folder_path = some "Cat/Org" →
      v ∉ (syncDrivePost ⟨1, 2, none⟩ "Cat/Org" samplePurgeDrive samplePurgeCat).1.videos) ∧
    (∀ p ∈ samplePurgeCat.pdfs, pMatchesScope ⟨1, 2, none⟩ p = true →
      p.folder_path = some "Cat/Org" →
      p ∉ (syncDrivePost ⟨1, 2, none⟩ "Cat/Org" samplePurgeDrive samplePurgeCat).1.pdfs) ∧
    (∀ v ∈ (syncDrivePost ⟨1, 2, none⟩ "Cat/Org" samplePurgeDrive samplePurgeCat).1.videos,
      vMatchesScope ⟨1, 2, none⟩ v = false) ∧
    (∀ p ∈ (syncDrivePost ⟨1, 2, none⟩ "Cat/Org" samplePurgeDrive samplePurgeCat).1.pdfs,
      pMatchesScope ⟨1, 2, none⟩ p = false) ∧
    (syncDrivePost ⟨1, 2, none⟩ "Cat/Org" samplePurgeDrive samplePurgeCat).2 =
      { synced := 0
        deleted := samplePurgeCat.videos.countP (fun v => vMatchesScope ⟨1, 2, none⟩ v)
        pdf_synced := 0
        pdf_deleted := samplePurgeCat.pdfs.countP (fun p => pMatchesScope ⟨1, 2, none⟩ p) } ∧
    (∀ v ∈ (syncDrivePost ⟨1, 2, none⟩ "Cat/Org" samplePurgeDrive samplePurgeCat).1.videos,
      v ∈ samplePurgeCat.videos) ∧
    (∀ p ∈ (syncDrivePost ⟨1, 2, none⟩ "Cat/Org" samplePurgeDrive samplePurgeCat).1.pdfs,
      p ∈ samplePurgeCat.pdfs) :=
  sync_purge_on_missing_folder ⟨1, 2, none⟩ "Cat/Org" samplePurgeDrive samplePurgeCat rfl

end Safevideo

namespace Safevideo

/-- Helper: the duration back-fill only ever changes the `duration` field. -/
theorem vBackfill_shape (d : DriveState) (sc : Scope) (v : VRow) :
    ∃ q, vBackfillDuration d sc v = { v with duration := q } := by
  unfold vBackfillDuration
  split
  · rcases hm : driveFileMapGet d.videoFiles (v.file_id.getD "") with _ | f
    · exact ⟨v.duration, rfl⟩
    · obtain ⟨fid, fname, fsize, fmime, ffold, fthumb, fprev, fdm⟩ := f
      rcases fdm with _ | ms
      · exact ⟨v.duration, rfl⟩
      · exact ⟨some ((ms : ℚ) / 1000), rfl⟩
  · exact ⟨v.duration, rfl⟩

/-- Helper: the phase-3 keep predicate ignores `duration`, so it is
invariant under the back-fill. -/
theorem phase3Keep_backfill (sc : Scope) (d : DriveState) (v : VRow) :
    phase3Keep sc d (vBackfillDuration d sc v) = phase3Keep sc d v := by
  obtain ⟨q, hq⟩ := vBackfill_shape d sc v
  rw [hq]
  rfl

/-- Helper: `existing_filter` membership ignores `duration`. -/
theorem vInExistingFilter_backfill (sc : Scope) (d : DriveState) (v : VRow) :
    vInExistingFilter sc (vBackfillDuration d sc v) = vInExistingFilter sc v := by
  obtain ⟨q, hq⟩ := vBackfill_shape d sc v
  rw [hq]
  rfl

/-- Helper: the back-fill preserves `file_id`. -/
theorem vBackfill_file_id (d : DriveState) (sc : Scope) (v : VRow) :
    (vBackfillDuration d sc v).file_id = v.file_id := by
  obtain ⟨q, hq⟩ := vBackfill_shape d sc v
  rw [hq]

/-- Helper: the duration back-fill is idempotent on any row. -/
theorem vBackfill_idem (d : DriveState) (sc : Scope) (v : VRow) :
    vBackfillDuration d sc (vBackfillDuration d sc v) = vBackfillDuration d sc v := by
  by_cases hc : (vMatchesScope sc v && v.status == "COMPLETED" && v.file_id.isSome &&
      v.duration.isNone) = true
  · rcases hm : driveFileMapGet d.videoFiles (v.file_id.getD "") with _ | f
    · have h1 : vBackfillDuration d sc v = v := by
        unfold vBackfillDuration
        rw [if_pos hc, hm]
      rw [h1]
      exact h1
    · obtain ⟨fid, fname, fsize, fmime, ffold, fthumb, fprev, fdm⟩ := f
      rcases fdm with _ | ms
      · have h1 : vBackfillDuration d sc v = v := by
          unfold vBackfillDuration
          rw [if_pos hc, hm]
        rw [h1]
        exact h1
      · have h1 : vBackfillDuration d sc v = { v with duration := some ((ms : ℚ) / 1000) } := by
          unfold vBackfillDuration
          rw [if_pos hc, hm]
        rw [h1]
        unfold vBackfillDuration
        rw [if_neg (by simp)]
  · have h1 : vBackfillDuration d sc v = v := by
      unfold vBackfillDuration
      rw [if_neg hc]
    rw [h1]
    exact h1

/-- Helper: the drive-file map lookup finds a listed file by its own id
(drive listings carry pairwise-distinct ids). -/
theorem driveFileMapGet_self (fs : List DriveFile) (f : DriveFile)
    (hnodup : (fs.map (·.id)).Nodup) (hf : f ∈ fs) (hne : f.id ≠ "") :
    driveFileMapGet fs f.id = some f := by
  unfold driveFileMapGet
  have hmemf : f ∈ (fs.filter (fun g => g.id != "")).reverse := by
    rw [List.mem_reverse]
    exact List.mem_filter.mpr ⟨hf, by simpa using hne⟩
  rcases hfind : ((fs.filter (fun g => g.id != "")).reverse).find? (fun g => g.id == f.id)
    with _ | g
  · exfalso
    have := List.find?_eq_none.mp hfind f hmemf
    simp at this
  · have hg_pred := List.find?_some hfind
    have hg_mem := List.mem_of_find?_eq_some hfind
    have hg_fs : g ∈ fs := (List.mem_filter.mp (List.mem_reverse.mp hg_mem)).1
    have hgid : g.id = f.id := by simpa using hg_pred
    have hgf : g = f := List.inj_on_of_nodup_map hnodup hg_fs hf hgid
    exact hgf ▸ hfind

/-- Helper: an imported row is a fixed point of the duration back-fill:
its duration was already taken from the same listing entry. -/
theorem vBackfill_mkSynced (d : DriveState) (sc : Scope) (path : String) (f : DriveFile)
    (hnodup : (d.videoFiles.map (·.id)).Nodup) (hf : f ∈ d.videoFiles)
    (hne : f.id ≠ "") :
    vBackfillDuration d sc (mkSyncedVideo sc path f) = mkSyncedVideo sc path f := by
  obtain ⟨fid, fname, fsize, fmime, ffold, fthumb, fprev, fdm⟩ := f
  rcases fdm with _ | ms
  · unfold vBackfillDuration
    split
    · rw [show (mkSyncedVideo sc path
          ⟨fid, fname, fsize, fmime, ffold, fthumb, fprev, none⟩).file_id.getD "" = fid
          from rfl]
      rw [driveFileMapGet_self d.videoFiles _ hnodup hf hne]
    · rfl
  · unfold vBackfillDuration
    rw [if_neg (by simp [mkSyncedVideo])]

/-- Helper: an imported video row is present on Drive: its `file_id` is a
listed id. -/
theorem mkSyncedVideo_still (sc : Scope) (path : String) (d : DriveState) (f : DriveFile)
    (hf : f ∈ d.videoFiles) (hne : f.id ≠ "") :
    vStillOnDrive d (mkSyncedVideo sc path f) = true := by
  have hid : (driveVideoIds d).contains f.id = true := by
    have : f.id ∈ driveVideoIds d := by
      unfold driveVideoIds truthyIds
      exact List.mem_filter.mpr ⟨List.mem_map.mpr ⟨f, hf, rfl⟩, by simpa using hne⟩
    simpa using this
  have hcond : (optTruthy (mkSyncedVideo sc path f).file_id &&
      (driveVideoIds d).contains ((mkSyncedVideo sc path f).file_id.getD "")
      || optTruthy (mkSyncedVideo sc path f).drive_folder_id &&
        (driveVideoSubfolderIds d).contains
          ((mkSyncedVideo sc path f).drive_folder_id.getD "")) = true := by
    simp only [Bool.or_eq_true, Bool.and_eq_true]
    left
    exact ⟨by simpa [mkSyncedVideo, optTruthy] using hne,
      by simpa [mkSyncedVideo] using hid⟩
  unfold vStillOnDrive
  rw [if_pos hcond]

/-- Helper: an imported video row matches `existing_filter`. -/
theorem mkSyncedVideo_existing (sc : Scope) (path : String) (f : DriveFile) :
    vInExistingFilter sc (mkSyncedVideo sc path f) = true := by
  unfold vInExistingFilter vMatchesScope mkSyncedVideo
  rcases sc.chapter with _ | c <;> simp

/-- Helper: an imported PDF row is present on Drive. -/
theorem mkSyncedPdf_still (sc : Scope) (path : String) (d : DriveState) (f : DriveFile)
    (hf : f ∈ d.pdfFiles) (hne : f.id ≠ "") :
    pStillOnDrive d (mkSyncedPdf sc path f) = true := by
  have hid : (drivePdfIds d).contains f.id = true := by
    have : f.id ∈ drivePdfIds d := by
      unfold drivePdfIds truthyIds
      exact List.mem_filter.mpr ⟨List.mem_map.mpr ⟨f, hf, rfl⟩, by simpa using hne⟩
    simpa using this
  have hcond : (optTruthy (mkSyncedPdf sc path f).file_id &&
      (drivePdfIds d).contains ((mkSyncedPdf sc path f).file_id.getD "")
      || optTruthy (mkSyncedPdf sc path f).drive_folder_id &&
        (drivePdfSubfolderIds d).contains
          ((mkSyncedPdf sc path f).drive_folder_id.getD "")) = true := by
    simp only [Bool.or_eq_true, Bool.and_eq_true]
    left
    exact ⟨by simpa [mkSyncedPdf, optTruthy] using hne,
      by simpa [mkSyncedPdf] using hid⟩
  unfold pStillOnDrive
  rw [if_pos hcond]

/-- Helper: an imported PDF row matches `pdf_filter`. -/
theorem mkSyncedPdf_filter (sc : Scope) (path : String) (f : DriveFile) :
    pInPdfFilter sc (mkSyncedPdf sc path f) = true := by
  unfold pInPdfFilter pMatchesScope mkSyncedPdf
  rcases sc.chapter with _ | c <;> simp

end Safevideo

namespace Safevideo

/-- Characterization of the video rows a sync pass leaves behind:
the back-filled survivors followed by the imported listings. -/
theorem syncPhases_videos_eq (sc : Scope) (path : String) (d : DriveState) (cat : Catalog) :
    (syncPhases sc path d cat).1.videos =
      (cat.videos.filter (phase3Keep sc d)).map (vBackfillDuration d sc) ++
      (d.videoFiles.filter (fun f =>
        !(vRemainingIds sc (cat.videos.filter (phase3Keep sc d))).contains f.id)).map
        (mkSyncedVideo sc path) := rfl

/-- Characterization of the PDF rows a sync pass leaves behind. -/
theorem syncPhases_pdfs_eq (sc : Scope) (path : String) (d : DriveState) (cat : Catalog) :
    (syncPhases sc path d cat).1.pdfs =
      cat.pdfs.filter (phase5Keep sc d) ++
      (d.pdfFiles.filter (fun f =>
        !(pRemainingIds sc (cat.pdfs.filter (phase5Keep sc d))).contains f.id)).map
        (mkSyncedPdf sc path) := rfl

/-- Characterization of the counters of a sync pass. -/
theorem syncPhases_counters_eq (sc : Scope) (path : String) (d : DriveState) (cat : Catalog) :
    (syncPhases sc path d cat).2 =
      { synced := (d.videoFiles.filter (fun f =>
          !(vRemainingIds sc (cat.videos.filter (phase3Keep sc d))).contains f.id)).length
        deleted := cat.videos.countP (fun v => vInExistingFilter sc v && !vStillOnDrive d v)
        pdf_synced := (d.pdfFiles.filter (fun f =>
          !(pRemainingIds sc (cat.pdfs.filter (phase5Keep sc d))).contains f.id)).length
        pdf_deleted := cat.pdfs.countP (fun p => pInPdfFilter sc p && !pStillOnDrive d p) } := rfl

/-- Helper: boolean negation from propositional refutation. -/
theorem bool_not_true_of_ne {b : Bool} (h : ¬b = true) : (!b) = true := by
  cases b
  · rfl
  · exact absurd rfl h

/-- Helper: every video row left by a sync pass passes the phase-3 keep
check against the same drive state. -/
theorem syncPhases_keepAll (sc : Scope) (path : String) (d : DriveState) (cat : Catalog)
    (hvid : ∀ f ∈ d.videoFiles, f.id ≠ "") :
    ∀ v ∈ (syncPhases sc path d cat).1.videos, phase3Keep sc d v = true := by
  intro v hv
  rw [syncPhases_videos_eq] at hv
  rcases List.mem_append.mp hv with h | h
  · obtain ⟨w, hw, rfl⟩ := List.mem_map.mp h
    rw [phase3Keep_backfill]
    exact (List.mem_filter.mp hw).2
  · obtain ⟨f, hfm, rfl⟩ := List.mem_map.mp h
    have hf : f ∈ d.videoFiles := (List.mem_filter.mp hfm).1
    unfold phase3Keep
    rw [mkSyncedVideo_still sc path d f hf (hvid f hf)]
    simp

/-- Helper: every PDF row left by a sync pass passes the phase-5b keep
check against the same drive state. -/
theorem syncPhases_keepAllPdf (sc : Scope) (path : String) (d : DriveState) (cat : Catalog)
    (hpdf : ∀ f ∈ d.pdfFiles, f.id ≠ "") :
    ∀ p ∈ (syncPhases sc path d cat).1.pdfs, phase5Keep sc d p = true := by
  intro p hp
  rw [syncPhases_pdfs_eq] at hp
  rcases List.mem_append.mp hp with h | h
  · exact (List.mem_filter.mp h).2
  · obtain ⟨f, hfm, rfl⟩ := List.mem_map.mp h
    have hf : f ∈ d.pdfFiles := (List.mem_filter.mp hfm).1
    unfold phase5Keep
    rw [mkSyncedPdf_still sc path d f hf (hpdf f hf)]
    simp

/-- Helper: after one sync pass, every listed Drive video id is recorded
on some catalog row matching `existing_filter`. -/
theorem syncPhases_remainAll (sc : Scope) (path : String) (d : DriveState) (cat : Catalog) :
    ∀ f ∈ d.videoFiles,
      (vRemainingIds sc (syncPhases sc path d cat).1.videos).contains f.id = true := by
  intro f hf
  have hmem : f.id ∈ vRemainingIds sc (syncPhases sc path d cat).1.videos := by
    rw [syncPhases_videos_eq]
    unfold vRemainingIds
    rw [List.mem_filterMap]
    by_cases hrem :
        (vRemainingIds sc (cat.videos.filter (phase3Keep sc d))).contains f.id = true
    · have : f.id ∈ vRemainingIds sc (cat.videos.filter (phase3Keep sc d)) := by
        simpa using hrem
      obtain ⟨w, hw, hwid⟩ := List.mem_filterMap.mp this
      have hcond : vInExistingFilter sc w = true := by
        by_cases hc : vInExistingFilter sc w = true
        · exact hc
        · rw [if_neg hc] at hwid
          cases hwid
      rw [if_pos hcond] at hwid
      refine ⟨vBackfillDuration d sc w,
        List.mem_append.mpr (Or.inl (List.mem_map.mpr ⟨w, hw, rfl⟩)), ?_⟩
      rw [if_pos (by rw [vInExistingFilter_backfill]; exact hcond)]
      rw [vBackfill_file_id]
      exact hwid
    · refine ⟨mkSyncedVideo sc path f,
        List.mem_append.mpr (Or.inr (List.mem_map.mpr
          ⟨f, List.mem_filter.mpr ⟨hf, bool_not_true_of_ne hrem⟩, rfl⟩)), ?_⟩
      rw [if_pos (mkSyncedVideo_existing sc path f)]
      rfl
  simpa using hmem

/-- Helper: after one sync pass, every listed Drive PDF id is recorded on
some catalog row matching `pdf_filter`. -/
theorem syncPhases_remainAllPdf (sc : Scope) (path : String) (d : DriveState) (cat : Catalog) :
    ∀ f ∈ d.pdfFiles,
      (pRemainingIds sc (syncPhases sc path d cat).1.pdfs).contains f.id = true := by
  intro f hf
  have hmem : f.id ∈ pRemainingIds sc (syncPhases sc path d cat).1.pdfs := by
    rw [syncPhases_pdfs_eq]
    unfold pRemainingIds
    rw [List.mem_filterMap]
    by_cases hrem :
        (pRemainingIds sc (cat.pdfs.filter (phase5Keep sc d))).contains f.id = true
    · have : f.id ∈ pRemainingIds sc (cat.pdfs.filter (phase5Keep sc d)) := by
        simpa using hrem
      obtain ⟨w, hw, hwid⟩ := List.mem_filterMap.mp this
      refine ⟨w, List.mem_append.mpr (Or.inl hw), hwid⟩
    · refine ⟨mkSyncedPdf sc path f,
        List.mem_append.mpr (Or.inr (List.mem_map.mpr
          ⟨f, List.mem_filter.mpr ⟨hf, bool_not_true_of_ne hrem⟩, rfl⟩)), ?_⟩
      rw [if_pos (mkSyncedPdf_filter sc path f)]
      rfl
  simpa using hmem

/-- Helper: every video row left by a sync pass is a fixed point of the
duration back-fill. -/
theorem syncPhases_backfillAll (sc : Scope) (path : String) (d : DriveState) (cat : Catalog)
    (hvid : ∀ f ∈ d.videoFiles, f.id ≠ "")
    (hnodup : (d.videoFiles.map (·.id)).Nodup) :
    ∀ v ∈ (syncPhases sc path d cat).1.videos, vBackfillDuration d sc v = v := by
  intro v hv
  rw [syncPhases_videos_eq] at hv
  rcases List.mem_append.mp hv with h | h
  · obtain ⟨w, _, rfl⟩ := List.mem_map.mp h
    exact vBackfill_idem d sc w
  · obtain ⟨f, hfm, rfl⟩ := List.mem_map.mp h
    have hf : f ∈ d.videoFiles := (List.mem_filter.mp hfm).1
    exact vBackfill_mkSynced d sc path f hnodup hf (hvid f hf)

/-- Helper: a catalog whose rows all pass the keep checks, are back-fill
fixed points, and already record every listed Drive id, is a fixed point
of the sync phases, with all four counters zero. -/
theorem syncPhases_fixed (sc : Scope) (path : String) (d : DriveState) (cat₁ : Catalog)
    (hkeepV : ∀ v ∈ cat₁.videos, phase3Keep sc d v = true)
    (hkeepP : ∀ p ∈ cat₁.pdfs, phase5Keep sc d p = true)
    (hremV : ∀ f ∈ d.videoFiles, (vRemainingIds sc cat₁.videos).contains f.id = true)
    (hremP : ∀ f ∈ d.pdfFiles, (pRemainingIds sc cat₁.pdfs).contains f.id = true)
    (hbf : ∀ v ∈ cat₁.videos, vBackfillDuration d sc v = v) :
    syncPhases sc path d cat₁ = (cat₁, ⟨0, 0, 0, 0⟩) := by
  have hsurv : cat₁.videos.filter (phase3Keep sc d) = cat₁.videos :=
    List.filter_eq_self.mpr hkeepV
  have hsurvP : cat₁.pdfs.filter (phase5Keep sc d) = cat₁.pdfs :=
    List.filter_eq_self.mpr hkeepP
  have hdel : cat₁.videos.countP (fun v => vInExistingFilter sc v && !vStillOnDrive d v) = 0 := by
    rw [List.countP_eq_zero]
    intro v hv
    have := hkeepV v hv
    unfold phase3Keep at this
    simp only [Bool.not_eq_true'] at this
    simp [this]
  have hdelP : cat₁.pdfs.countP (fun p => pInPdfFilter sc p && !pStillOnDrive d p) = 0 := by
    rw [List.countP_eq_zero]
    intro p hp
    have := hkeepP p hp
    unfold phase5Keep at this
    simp only [Bool.not_eq_true'] at this
    simp [this]
  have hnewV : d.videoFiles.filter (fun f =>
      !(vRemainingIds sc cat₁.videos).contains f.id) = [] := by
    rw [List.filter_eq_nil_iff]
    intro f hf
    rw [hremV f hf]
    simp
  have hnewP : d.pdfFiles.filter (fun f =>
      !(pRemainingIds sc cat₁.pdfs).contains f.id) = [] := by
    rw [List.filter_eq_nil_iff]
    intro f hf
    rw [hremP f hf]
    simp
  have hmap : cat₁.videos.map (vBackfillDuration d sc) = cat₁.videos := by
    rw [List.map_congr_left hbf]
    exact List.map_id _
  have h1 : (syncPhases sc path d cat₁).1.videos = cat₁.videos := by
    rw [syncPhases_videos_eq, hsurv, hmap, hnewV]
    simp
  have h2 : (syncPhases sc path d cat₁).1.pdfs = cat₁.pdfs := by
    rw [syncPhases_pdfs_eq, hsurvP, hnewP]
    simp
  have e1 : (syncPhases sc path d cat₁).1 = cat₁ := by
    have hx : (syncPhases sc path d cat₁).1 =
        { videos := (syncPhases sc path d cat₁).1.videos
          pdfs := (syncPhases sc path d cat₁).1.pdfs } := rfl
    rw [hx, h1, h2]
  have e2 : (syncPhases sc path d cat₁).2 = ⟨0, 0, 0, 0⟩ := by
    rw [syncPhases_counters_eq, hsurv, hsurvP, hnewV, hnewP, hdel, hdelP]
    rfl
  calc syncPhases sc path d cat₁
      = ((syncPhases sc path d cat₁).1, (syncPhases sc path d cat₁).2) := rfl
    _ = (cat₁, ⟨0, 0, 0, 0⟩) := by rw [e1, e2]

end Safevideo

namespace Safevideo

/-- Claim C4: reconciliation is idempotent.  If a sync run completes and
neither the object store (drive listing, folder resolution, `file_exists`
answers) nor the catalog changes in between, a second run over the same
scope reports all four counters (videos added / removed, PDFs added /
removed) equal to zero and returns the catalog unchanged — no row is
created, deleted or modified.  Drive listings are assumed to carry
nonempty, pairwise-distinct file ids, as the Drive API guarantees. -/
theorem sync_idempotent (sc : Scope) (path : String) (d : DriveState) (cat : Catalog)
    (hvid : ∀ f ∈ d.videoFiles, f.id ≠ "")
    (hpdf : ∀ f ∈ d.pdfFiles, f.id ≠ "")
    (hnodup : (d.videoFiles.map (·.id)).Nodup) :
    syncDrivePost sc path d (syncDrivePost sc path d cat).1 =
      ((syncDrivePost sc path d cat).1, ⟨0, 0, 0, 0⟩) := by
  rcases hfold : d.folderId with _ | fid
  · simp only [syncDrivePost, hfold]
    have hv : (cat.videos.filter (fun v => !vMatchesScope sc v)).filter
        (fun v => !vMatchesScope sc v) = cat.videos.filter (fun v => !vMatchesScope sc v) :=
      List.filter_eq_self.mpr (fun v hv => (List.mem_filter.mp hv).2)
    have hp : (cat.pdfs.filter (fun p => !pMatchesScope sc p)).filter
        (fun p => !pMatchesScope sc p) = cat.pdfs.filter (fun p => !pMatchesScope sc p) :=
      List.filter_eq_self.mpr (fun p hp => (List.mem_filter.mp hp).2)
    have hcv : (cat.videos.filter (fun v => !vMatchesScope sc v)).countP
        (fun v => vMatchesScope sc v) = 0 := by
      rw [List.countP_eq_zero]
      intro v hv
      have := (List.mem_filter.mp hv).2
      simp only [Bool.not_eq_true'] at this
      simp [this]
    have hcp : (cat.pdfs.filter (fun p => !pMatchesScope sc p)).countP
        (fun p => pMatchesScope sc p) = 0 := by
      rw [List.countP_eq_zero]
      intro p hp
      have := (List.mem_filter.mp hp).2
      simp only [Bool.not_eq_true'] at this
      simp [this]
    rw [hv, hp, hcv, hcp]
  · simp only [syncDrivePost, hfold]
    exact syncPhases_fixed sc path d _
      (syncPhases_keepAll sc path d cat hvid)
      (syncPhases_keepAllPdf sc path d cat hpdf)
      (syncPhases_remainAll sc path d cat)
      (syncPhases_remainAllPdf sc path d cat)
      (syncPhases_backfillAll sc path d cat hvid hnodup)

/-- The C4 witness drive state: a resolved scope folder with one video
and one PDF listing. -/
def sampleSyncDrive : DriveState :=
  { folderId := some "F"
    videoFiles := [{ id := "v1", name := "Clip", size := 5, mimeType := some "video/mp4"
                     driveFolderId := none, thumbnailId := none, previewId := none
                     durationMillis := none }]
    pdfFiles := [{ id := "p1", name := "Doc.pdf", size := 3
                   mimeType := some "application/pdf", driveFolderId := none
                   thumbnailId := none, previewId := none, durationMillis := none }]
    liveIds := ["v1", "p1"] }

/-- Witness for C4: starting from an empty catalog, the first run imports
the two listings; the second run returns that catalog unchanged with all
counters zero. -/
theorem sync_idempotent_witness :
    syncDrivePost ⟨1, 2, none⟩ "Cat/Org" sampleSyncDrive
        (syncDrivePost ⟨1, 2, none⟩ "Cat/Org" sampleSyncDrive ⟨[], []⟩).1 =
      ((syncDrivePost ⟨1, 2, none⟩ "Cat/Org" sampleSyncDrive ⟨[], []⟩).1, ⟨0, 0, 0, 0⟩) :=
  sync_idempotent ⟨1, 2, none⟩ "Cat/Org" sampleSyncDrive ⟨[], []⟩
    (by decide) (by decide) (by decide)

end Safevideo
